import Mathlib

/-
Verification of the language-server core logic of the vscode-standard
extension.  The definitions below are shallow embeddings of the functions
in `server/src/server.ts` and `client/src/extension.ts`: autofix edit
selection (`Fixes`), the buffered LSP message queue, diagnostic
conversion, settings resolution from `package.json`, the settings/library
caches, the lazy client activation gate, and the working-directory
discipline of `validate`.
-/

set_option maxHeartbeats 1000000

namespace VStandard

/-- Offsets of a linter autofix edit: `edit.range = [start, end]` character
offsets into the document, plus the replacement text
(`StandardAutoFixEdit` in `server.ts`). -/

structure StandardAutoFixEdit where
  range : Int × Int
  text : Option String
deriving DecidableEq, Repr

/-- A recorded autofix (`AutoFix` in `server.ts`): label, the document
version the edit was computed against, the rule id and the edit itself. -/

structure AutoFix where
  label : String
  documentVersion : Int
  ruleId : String
  edit : StandardAutoFixEdit
deriving DecidableEq, Repr

namespace Fixes

/-- Overlap test `Fixes.overlaps(lastEdit, newEdit)`: the previous edit's end offset is
strictly greater than the new edit's start offset. -/

def overlaps (lastEdit newEdit : AutoFix) : Bool :=
  decide (lastEdit.edit.range.2 > newEdit.edit.range.1)

/-- The comparator passed to `Array.prototype.sort` in
`Fixes.getAllSorted`: compare start offsets; on ties an edit whose end
offset is `0` sorts first, otherwise compare end offsets. -/

def sortCompare (a b : AutoFix) : Int :=
  if a.edit.range.1 - b.edit.range.1 ≠ 0 then a.edit.range.1 - b.edit.range.1
  else if a.edit.range.2 = 0 then -1
  else if b.edit.range.2 = 0 then 1
  else a.edit.range.2 - b.edit.range.2

/-- The ordering induced by `sortCompare`: `a` may come before `b`. -/

def sortLe (a b : AutoFix) : Prop := sortCompare a b ≤ 0

instance : DecidableRel sortLe := fun a b =>
  inferInstanceAs (Decidable (sortCompare a b ≤ 0))

instance : IsTotal AutoFix sortLe := ⟨by
  intro a b
  simp only [sortLe, sortCompare]
  split_ifs <;> omega⟩

instance : IsTrans AutoFix sortLe := ⟨by
  intro a b c hab hbc
  simp only [sortLe, sortCompare] at hab hbc ⊢
  split_ifs at hab hbc ⊢ <;> omega⟩

/-- Sorting step `Fixes.getAllSorted`: the recorded edits (map values in insertion
order), sorted with `sortCompare` by a stable sort. -/

def getAllSorted (edits : List AutoFix) : List AutoFix :=
  List.insertionSort sortLe edits

/-- The scanning loop of `Fixes.getOverlapFree`: keep an edit exactly when
it does not overlap the last kept edit. -/

def overlapFreeLoop (last : AutoFix) : List AutoFix → List AutoFix
  | [] => []
  | current :: rest =>
    if overlaps last current then overlapFreeLoop last rest
    else current :: overlapFreeLoop current rest

/-- Selection `Fixes.getOverlapFree`: sort all recorded edits, keep the first and
then every edit that does not overlap the previously kept one. -/

def getOverlapFree (edits : List AutoFix) : List AutoFix :=
  match getAllSorted edits with
  | [] => []
  | first :: rest => first :: overlapFreeLoop first rest

/-- Edit `a` ends at or before edit `b` starts: `a` and `b` do not
conflict when applied in this order. -/

def nonOverlapping (a b : AutoFix) : Prop := a.edit.range.2 ≤ b.edit.range.1

/-- Start offsets are in (weakly) increasing order. -/

def startLe (a b : AutoFix) : Prop := a.edit.range.1 ≤ b.edit.range.1

end Fixes

/-! Buffered message queue (`BufferedMessageQueue` in `server.ts`).
Requests carry a cancellation token, a resolve/reject pair (represented by
the constructor) and an optional recorded document version; notifications
carry only the method, params and optional recorded version.  Handler
params are modelled as natural numbers and version providers as functions
from params to versions. -/

/-- A queued LSP message: a request (with token) or a notification. -/

inductive QMessage where
  | request (method : String) (params : Nat) (documentVersion : Option Int)
      (tokenCancelled : Bool)
  | notification (method : String) (params : Nat) (documentVersion : Option Int)
deriving DecidableEq, Repr

/-- The registered handler tables: for each method, `some vp?` when a
handler is registered, where `vp?` is its optional version provider. -/

structure QHandlers where
  requestHandlers : List (String × Option (Nat → Int))
  notificationHandlers : List (String × Option (Nat → Int))

/-- What one `processQueue` invocation did with the dequeued message. -/

inductive QOutcome where
  | empty
  | rejected (code : Int) (message : String)
  | dropped
  | handledRequest (method : String) (params : Nat)
  | handledNotification (method : String) (params : Nat)
deriving DecidableEq, Repr

/-- Error code `ErrorCodes.RequestCancelled` from the LSP json-rpc layer. -/

def requestCancelledCode : Int := -32800

/-- Look a method up in a handler table. -/

def lookupHandler (hs : List (String × Option (Nat → Int))) (m : String) :
    Option (Option (Nat → Int)) :=
  (hs.find? (fun p => p.1 == m)).map (fun p => p.2)

/-- Step function `BufferedMessageQueue.processQueue`: shift the head of the queue and
settle it.  A request whose token is cancelled is rejected; an
unregistered method is dropped; a request whose recorded version is
defined and differs from the version provider's current value is
rejected; a notification whose recorded version differs from the
provider's current value (including an undefined recorded version) is
silently dropped; otherwise the handler runs. -/

def processQueue (h : QHandlers) : List QMessage → List QMessage × QOutcome
  | [] => ([], QOutcome.empty)
  | QMessage.request method params docVer cancelled :: rest =>
    if cancelled then
      (rest, QOutcome.rejected requestCancelledCode "Request got cancelled")
    else
      match lookupHandler h.requestHandlers method with
      | none => (rest, QOutcome.dropped)
      | some vp =>
        match vp, docVer with
        | some provider, some v =>
          if v ≠ provider params then
            (rest, QOutcome.rejected requestCancelledCode "Request got cancelled")
          else (rest, QOutcome.handledRequest method params)
        | some _, none => (rest, QOutcome.handledRequest method params)
        | none, _ => (rest, QOutcome.handledRequest method params)
  | QMessage.notification method params docVer :: rest =>
    match lookupHandler h.notificationHandlers method with
    | none => (rest, QOutcome.dropped)
    | some vp =>
      match vp with
      | some provider =>
        if docVer ≠ some (provider params) then (rest, QOutcome.dropped)
        else (rest, QOutcome.handledNotification method params)
      | none => (rest, QOutcome.handledNotification method params)

/-- Enqueue path of `registerRequest`: push at the tail, recording the
version provider's value at enqueue time (or `undefined`). -/

def registerRequestEnqueue (q : List QMessage) (method : String) (params : Nat)
    (vp : Option (Nat → Int)) (cancelled : Bool) : List QMessage :=
  q ++ [QMessage.request method params (vp.map (fun f => f params)) cancelled]

/-- Enqueue path of `registerNotification`: push at the tail. -/

def registerNotificationEnqueue (q : List QMessage) (method : String)
    (params : Nat) (vp : Option (Nat → Int)) : List QMessage :=
  q ++ [QMessage.notification method params (vp.map (fun f => f params))]

/-- Enqueue `addNotificationMessage`: push at the tail with an explicit version. -/

def addNotificationMessage (q : List QMessage) (method : String) (params : Nat)
    (version : Int) : List QMessage :=
  q ++ [QMessage.notification method params (some version)]

/-- The outcome a message would get as head of the queue. -/

def outcomeOf (h : QHandlers) (m : QMessage) : QOutcome :=
  (processQueue h [m]).2

/-- Repeatedly run `processQueue` until the queue is empty, collecting the
outcome of each dequeued message in order. -/
def drainQueue (h : QHandlers) : List QMessage → List QOutcome
  | [] => []
  | m :: rest => (processQueue h (m :: rest)).2 :: drainQueue h rest

/-- A concrete handler table: method `"m"` registered on both sides with
version provider constantly `3`. -/
def qHandlersEx : QHandlers :=
  { requestHandlers := [("m", some (fun _ => (3 : Int)))]
    notificationHandlers := [("m", some (fun _ => (3 : Int)))] }

/-! Diagnostic conversion (`makeDiagnostic` and `convertSeverity` in
`server.ts`). -/
/-- The linter engines supported by the extension (`LinterValues`). -/
inductive Linter where
  | standard
  | semistandard
  | standardx
  | tsStandard
deriving DecidableEq, Repr

/-- An LSP position (0-based line and character). -/

structure Position where
  line : Int
  character : Int
deriving DecidableEq, Repr

/-- An LSP range, from `start` to `end`. -/

structure LspRange where
  start : Position
  «end» : Position
deriving DecidableEq, Repr

/-- The diagnostic severities produced by `convertSeverity`. -/

inductive DiagnosticSeverity where
  | error
  | warning
deriving DecidableEq, Repr

/-- A problem report from the linter (`StandardProblem`): 1-based
line/column, optional 1-based end line/column, a numeric severity, an
optional rule id, a message and an optional fix. -/

structure StandardProblem where
  line : Int
  column : Int
  endLine : Option Int
  endColumn : Option Int
  severity : Int
  ruleId : Option String
  message : String
  fix : Option StandardAutoFixEdit
deriving DecidableEq, Repr

/-- An LSP diagnostic as built by `makeDiagnostic`. -/

structure Diagnostic where
  message : String
  severity : DiagnosticSeverity
  source : Linter
  range : LspRange
  code : Option String
deriving DecidableEq, Repr

/-- Severity conversion `convertSeverity`: eslint severity 1 is `Warning`; 2 and every other
value map to `Error`. -/

def convertSeverity (severity : Int) : DiagnosticSeverity :=
  if severity = 1 then DiagnosticSeverity.warning
  else if severity = 2 then DiagnosticSeverity.error
  else DiagnosticSeverity.error

/-- Conversion `makeDiagnostic`: append `' (ruleId)'` to the message when the rule id
is non-null, convert 1-based positions to 0-based clamping at 0, default
the end position to the start position when end line/column are absent. -/

def makeDiagnostic (problem : StandardProblem) (source : Linter) : Diagnostic :=
  let message :=
    match problem.ruleId with
    | some rid => problem.message ++ " (" ++ rid ++ ")"
    | none => problem.message
  let startLine := max 0 (problem.line - 1)
  let startChar := max 0 (problem.column - 1)
  let endLine :=
    match problem.endLine with
    | some el => max 0 (el - 1)
    | none => startLine
  let endChar :=
    match problem.endColumn with
    | some ec => max 0 (ec - 1)
    | none => startChar
  { message := message
    severity := convertSeverity problem.severity
    source := source
    range :=
      { start := { line := startLine, character := startChar }
        «end» := { line := endLine, character := endChar } }
    code := problem.ruleId }

/-- A concrete problem report: `semi` at line 1 column 29, severity 2,
no end position. -/
def problemEx : StandardProblem :=
  { line := 1, column := 29, endLine := none, endColumn := none
    severity := 2, ruleId := some "semi", message := "Extra semicolon."
    fix := none }

/-! Settings resolution from `package.json` (`resolveSettings` in
`server.ts`).  Models the branch taken when `usePackageJson` is enabled, a
workspace folder is set and the folder's `package.json` exists. -/
/-- Which of the four supported linters appear in `devDependencies`. -/
structure DevDeps where
  standard : Bool
  semistandard : Bool
  standardx : Bool
  tsStandard : Bool
deriving DecidableEq, Repr

/-- The parts of a parsed `package.json` the resolution logic reads:
the optional `devDependencies` object and, for each linter name, the
optional top-level section under that key. -/

structure PackageJson where
  devDependencies : Option DevDeps
  sections : Linter → Option (List (String × String))

/-- The settings fields read and written by the `package.json` branch. -/

structure SettingsM where
  validate : Bool
  engine : Linter
  options : List (String × String)
deriving DecidableEq, Repr

/-- The first linter named in `devDependencies`, in the source's check
order: standard, semistandard, standardx, ts-standard. -/

def firstDevDepLinter (dd : DevDeps) : Option Linter :=
  if dd.standard then some Linter.standard
  else if dd.semistandard then some Linter.semistandard
  else if dd.standardx then some Linter.standardx
  else if dd.tsStandard then some Linter.tsStandard
  else none

/-- Merge `Object.assign({}, a, b)` on option objects viewed as key/value
lists: keys of `a` keep their position but take `b`'s value when `b` also
has the key; keys only in `b` are appended. -/

def objAssign (a b : List (String × String)) : List (String × String) :=
  a.map (fun kv =>
    match b.find? (fun kv2 => kv2.1 == kv.1) with
    | some kv2 => (kv.1, kv2.2)
    | none => kv) ++
  b.filter (fun kv2 => !(a.any (fun kv => kv.1 == kv2.1)))

/-- The `package.json` branch of `resolveSettings`: switch the local
linter to the first one named in `devDependencies`; when that linter also
has a top-level section, write it into `settings.engine` and merge the
section over `settings.options`; when `devDependencies` names none of the
four linters, disable validation.  Reading `devDependencies['ts-standard']`
when `devDependencies` is absent throws a `TypeError` (the source guards
the first three reads with `?.` but not the subscript on the fourth). -/

def applyPackageJson (s : SettingsM) (pkg : PackageJson) : Except String SettingsM :=
  match pkg.devDependencies with
  | none => Except.error "TypeError: cannot read properties of undefined"
  | some dd =>
    let linter := (firstDevDepLinter dd).getD s.engine
    if dd.standard || dd.semistandard || dd.standardx || dd.tsStandard then
      match pkg.sections linter with
      | some sec =>
        Except.ok { s with engine := linter, options := objAssign s.options sec }
      | none => Except.ok s
    else Except.ok { s with validate := false }

/-- The guard around the branch: it runs only when `usePackageJson` is
enabled, a workspace folder is set and `package.json` exists. -/

def resolvePackagePhase (usePackageJson : Bool) (workspaceFolderSet : Bool)
    (pkg : Option PackageJson) (s : SettingsM) : Except String SettingsM :=
  if usePackageJson && workspaceFolderSet then
    match pkg with
    | some p => applyPackageJson s p
    | none => Except.ok s
  else Except.ok s

/-- Workspace settings used in the `package.json` examples: engine
`standard`, validation on, no options. -/
def settingsEx : SettingsM :=
  { validate := true, engine := Linter.standard, options := [] }

/-- A `package.json` whose `devDependencies` names only `semistandard`
and which has no top-level linter section. -/

def pkgNoSectionEx : PackageJson :=
  { devDependencies :=
      some { standard := false, semistandard := true, standardx := false,
             tsStandard := false }
    sections := fun _ => none }

/-- A `package.json` naming `semistandard` in `devDependencies` together
with a top-level `semistandard` section. -/
def pkgWithSectionEx : PackageJson :=
  { devDependencies :=
      some { standard := false, semistandard := true, standardx := false,
             tsStandard := false }
    sections := fun l =>
      if l = Linter.semistandard then some [("parser", "babel-eslint")]
      else none }

/-! Settings and library caches (`document2Settings` and `path2Library`
in `server.ts`).  Promises are modelled by identifiers drawn from a
counter; each cache miss of `resolveSettings` performs one configuration
read, each cache miss of the library lookup performs one `require`. -/
/-- A loaded linter module: all the cache cares about is whether it
exports `lintText`. -/
structure LibraryModule where
  lintTextPresent : Bool
deriving DecidableEq, Repr

/-- The server's cache state: the per-URI settings-promise map, a fresh
promise counter, the number of configuration reads performed, the
per-path library map and the log of `require`d paths. -/

structure ServerCacheState where
  document2Settings : List (String × Nat)
  nextPromiseId : Nat
  configReads : Nat
  path2Library : List (String × LibraryModule)
  requireLog : List String
deriving DecidableEq, Repr

/-- Caching skeleton of `resolveSettings`: a cached promise for the URI is
returned unchanged; otherwise one configuration read happens, a fresh
promise is created and stored under the URI. -/

def resolveSettingsCached (st : ServerCacheState) (uri : String) :
    ServerCacheState × Nat :=
  match st.document2Settings.find? (fun p => p.1 == uri) with
  | some p => (st, p.2)
  | none =>
    ({ st with
        document2Settings := st.document2Settings ++ [(uri, st.nextPromiseId)]
        nextPromiseId := st.nextPromiseId + 1
        configReads := st.configReads + 1 },
     st.nextPromiseId)

/-- The library-loading step inside `resolveSettings`: a path already in
`path2Library` is served from the map; otherwise the module is
`require`d and, when non-null, stored in the map. -/

def loadLibrary (req : String → Option LibraryModule) (st : ServerCacheState)
    (path : String) : ServerCacheState × Option LibraryModule :=
  match st.path2Library.find? (fun p => p.1 == path) with
  | some p => (st, some p.2)
  | none =>
    match req path with
    | some lib =>
      ({ st with
          requireLog := st.requireLog ++ [path]
          path2Library := st.path2Library ++ [(path, lib)] },
       some lib)
    | none =>
      ({ st with requireLog := st.requireLog ++ [path] }, none)

/-- Invalidation `environmentChanged`: a configuration or workspace-folder change
clears the whole settings cache. -/

def cacheEnvironmentChanged (st : ServerCacheState) : ServerCacheState :=
  { st with document2Settings := [] }

/-- Invalidation on close, `documents.onDidClose`: closing a document deletes its settings-cache
entry. -/

def cacheCloseDocument (st : ServerCacheState) (uri : String) : ServerCacheState :=
  { st with
      document2Settings := st.document2Settings.filter (fun p => !(p.1 == uri)) }

/-- The empty server cache state. -/
def emptyCacheState : ServerCacheState :=
  { document2Settings := [], nextPromiseId := 0, configReads := 0,
    path2Library := [], requireLog := [] }

/-- A module resolver that finds a `lintText`-exporting module at every
path. -/

def reqEx : String → Option LibraryModule :=
  fun _ => some { lintTextPresent := true }

/-! Lazy client activation (`activate` in `client/src/extension.ts`).
Documents are modelled by numbers and `shouldBeValidated` by a boolean
predicate on them. -/
/-- The client activation state: the `activated` flag, whether the
open-document and configuration listeners are still subscribed, and how
often `realActivate` has run. -/
structure ActivationState where
  activated : Bool
  openListenerActive : Bool
  configListenerActive : Bool
  realActivateCount : Nat
deriving DecidableEq, Repr

/-- The state set up by `activate` before any event arrives. -/

def initialActivation : ActivationState :=
  { activated := false, openListenerActive := true,
    configListenerActive := true, realActivateCount := 0 }

/-- The state after `realActivate` fires: flag set, both listeners
disposed, the call counter bumped. -/

def activatedState (n : Nat) : ActivationState :=
  { activated := true, openListenerActive := false,
    configListenerActive := false, realActivateCount := n + 1 }

/-- An event observed by the activation gate: a document was opened, or
the configuration changed while the given documents are open. -/

inductive ClientEvent where
  | didOpen (doc : Nat)
  | configChange (openDocs : List Nat)
deriving DecidableEq, Repr

/-- One event step: `didOpenTextDocument` activates when the gate is not
yet activated and the document should be validated;
`configurationChanged` activates when some open document should be
validated.  Disposed listeners receive no events. -/

def activationStep (valid : Nat → Bool) (s : ActivationState)
    (e : ClientEvent) : ActivationState :=
  match e with
  | ClientEvent.didOpen d =>
    if !s.openListenerActive then s
    else if s.activated then s
    else if valid d then activatedState s.realActivateCount
    else s
  | ClientEvent.configChange docs =>
    if !s.configListenerActive then s
    else if s.activated then s
    else if docs.any valid then activatedState s.realActivateCount
    else s

/-- Run the activation gate from the initial state over a sequence of
events. -/

def runActivation (valid : Nat → Bool) (events : List ClientEvent) :
    ActivationState :=
  events.foldl (activationStep valid) initialActivation

/-- Whether an event can trigger activation: an opened document that
should be validated, or a configuration change while such a document is
open. -/

def eventTriggers (valid : Nat → Bool) : ClientEvent → Bool
  | ClientEvent.didOpen d => valid d
  | ClientEvent.configChange docs => docs.any valid

/-- The activation invariant: not yet activated means `realActivate`
never ran; activated means it ran exactly once and both listeners are
disposed. -/

def ActivationInv (s : ActivationState) : Prop :=
  (s.activated = false → s.realActivateCount = 0) ∧
  (s.activated = true → s.realActivateCount = 1 ∧
    s.openListenerActive = false ∧ s.configListenerActive = false)

/-! Version-gated autofix computation (`getFixes` and `computeAllFixes`
in `server.ts`). -/
/-- The parts of an open text document these functions read: its URI, its
current version and its offset-to-position conversion. -/
structure TextDocumentM where
  uri : String
  version : Int
  positionAt : Int → Position

/-- An LSP text edit as built by `TextEdit.replace`. -/

structure TextEditM where
  rangeStart : Position
  rangeEnd : Position
  newText : String
deriving DecidableEq, Repr

/-- Edit construction `createTextEdit`: replace the document range spanned by the edit's
offsets with the edit's text (empty when the text is null). -/

def createTextEdit (doc : TextDocumentM) (editInfo : AutoFix) : TextEditM :=
  { rangeStart := doc.positionAt editInfo.edit.range.1
    rangeEnd := doc.positionAt editInfo.edit.range.2
    newText := editInfo.edit.text.getD "" }

/-- Version accessor `Fixes.getDocumentVersion`: the version recorded on the first edit
(the source throws when no edits are recorded; callers check emptiness
first). -/

def getDocumentVersion (edits : List AutoFix) : Option Int :=
  edits.head?.map (fun e => e.documentVersion)

/-- Fix collection `getFixes`: the overlap-free edits of the document, or `[]` when no
edits are recorded for the URI, the recorded edits are empty, or the
recorded document version differs from the document's current version. -/

def getFixes (codeActions : List (String × List AutoFix))
    (doc : TextDocumentM) : List TextEditM :=
  match codeActions.find? (fun p => p.1 == doc.uri) with
  | none => []
  | some p =>
    if p.2.isEmpty then []
    else if some doc.version ≠ getDocumentVersion p.2 then []
    else (Fixes.getOverlapFree p.2).map (createTextEdit doc)

/-- Command handler `computeAllFixes`: `undefined` when the document is not open, the
requested version differs from the document's current version, or no
(non-empty) edits are recorded; otherwise the overlap-free edit set. -/

def computeAllFixes (documents : String → Option TextDocumentM)
    (codeActions : List (String × List AutoFix)) (uri : String)
    (version : Int) : Option (List TextEditM) :=
  match documents uri with
  | none => none
  | some doc =>
    if version ≠ doc.version then none
    else
      match codeActions.find? (fun p => p.1 == uri) with
      | none => none
      | some p =>
        if p.2.isEmpty then none
        else some ((Fixes.getOverlapFree p.2).map (createTextEdit doc))

/-- A recorded autofix at offsets 5–8, recorded against version 1. -/
def autoFixEx : AutoFix :=
  { label := "Fix this semi problem", documentVersion := 1, ruleId := "semi"
    edit := { range := (5, 8), text := some "" } }

/-- An open document at version 2. -/

def docEx : TextDocumentM :=
  { uri := "file:///a.js", version := 2
    positionAt := fun _ => { line := 0, character := 0 } }

/-- Recorded code actions: one edit for `file:///a.js` recorded against
version 1. -/

def codeActionsEx : List (String × List AutoFix) :=
  [("file:///a.js", [autoFixEx])]

/-! Working-directory discipline of `validate` (`server.ts`).  The only
state is the process working directory; `chdir` to an invalid directory
throws and leaves it unchanged. -/
/-- A `standard.workingDirectories` entry. -/
structure DirectoryItem where
  directory : String
  changeProcessCWD : Option Bool
deriving DecidableEq, Repr

/-- The workspace folder fields `validate` reads. -/

structure WorkspaceFolderRef where
  schemeIsFile : Bool
  fsPath : String
deriving DecidableEq, Repr

/-- The outcome of the `try` block: normal completion or an exception, in
both cases with the working directory at that point. -/

inductive TryOutcome where
  | ok (cwd : String)
  | exn (cwd : String)
deriving DecidableEq, Repr

/-- Model of `process.chdir`: move to the directory when it is valid, otherwise
throw leaving the working directory unchanged.  Returns the new working
directory and whether the call succeeded. -/

def chdirModel (validDir : String → Bool) (cwd d : String) : String × Bool :=
  if validDir d then (d, true) else (cwd, false)

/-- The `try` block of `validate`: change directory per the working
directory setting (when `changeProcessCWD`) or the file-scheme workspace
folder, then lint (which may throw). -/

def validateTryBlock (validDir : String → Bool) (wd : Option DirectoryItem)
    (wsf : Option WorkspaceFolderRef) (lintThrows : Bool) (cwd0 : String) :
    TryOutcome :=
  let step :=
    match wd with
    | some w =>
      if w.changeProcessCWD.getD false then
        let r := chdirModel validDir cwd0 w.directory
        if r.2 then TryOutcome.ok r.1 else TryOutcome.exn r.1
      else TryOutcome.ok cwd0
    | none =>
      match wsf with
      | some f =>
        if f.schemeIsFile then
          let r := chdirModel validDir cwd0 f.fsPath
          if r.2 then TryOutcome.ok r.1 else TryOutcome.exn r.1
        else TryOutcome.ok cwd0
      | none => TryOutcome.ok cwd0
  match step with
  | TryOutcome.exn c => TryOutcome.exn c
  | TryOutcome.ok c => if lintThrows then TryOutcome.exn c else TryOutcome.ok c

/-- The working directory when control reaches the `finally` block
(exceptions from the body are swallowed by the empty `catch`). -/

def cwdAfterTry (t : TryOutcome) : String :=
  match t with
  | TryOutcome.ok c => c
  | TryOutcome.exn c => c

/-- Wrapper for `validate` end to end with respect to the working directory: run the
`try` block from `cwd0`, then the `finally` block restores `cwd0`
whenever the current directory differs from it. -/

def validateFinalCwd (validDir : String → Bool) (wd : Option DirectoryItem)
    (wsf : Option WorkspaceFolderRef) (lintThrows : Bool) (cwd0 : String) :
    String :=
  if cwd0 ≠ cwdAfterTry (validateTryBlock validDir wd wsf lintThrows cwd0) then
    cwd0
  else cwdAfterTry (validateTryBlock validDir wd wsf lintThrows cwd0)

/-! Auxiliary lemmas and the claim theorems. -/

namespace Fixes

theorem sortLe_startLe {a b : AutoFix} (h : sortLe a b) : startLe a b := by
  simp only [sortLe, sortCompare] at h
  simp only [startLe]
  split_ifs at h <;> omega

theorem overlapFreeLoop_sublist (last : AutoFix) :
    ∀ l : List AutoFix, List.Sublist (overlapFreeLoop last l) l := by
  intro l
  induction l generalizing last with
  | nil => simp [overlapFreeLoop]
  | cons current rest ih =>
    simp only [overlapFreeLoop]
    split
    · exact List.Sublist.cons current (ih last)
    · exact List.Sublist.cons₂ current (ih current)

theorem overlapFreeLoop_chain (last : AutoFix) :
    ∀ l : List AutoFix, List.Chain nonOverlapping last (overlapFreeLoop last l) := by
  intro l
  induction l generalizing last with
  | nil => exact List.Chain.nil
  | cons current rest ih =>
    simp only [overlapFreeLoop]
    split
    · exact ih last
    · rename_i hno
      refine List.Chain.cons ?_ (ih current)
      simp only [overlaps, decide_eq_true_eq] at hno
      simp only [nonOverlapping]
      omega

theorem pairwise_of_chain_of_sorted :
    ∀ l : List AutoFix, List.Chain' nonOverlapping l → List.Pairwise startLe l →
      List.Pairwise nonOverlapping l := by
  intro l
  induction l with
  | nil => intro _ _; exact List.Pairwise.nil
  | cons a t ih =>
    intro hchain hsorted
    rw [List.pairwise_cons] at hsorted
    have ht : List.Chain' nonOverlapping t := (List.chain'_cons'.mp hchain).2
    refine List.pairwise_cons.mpr ⟨?_, ih ht hsorted.2⟩
    intro b hb
    cases t with
    | nil => simp at hb
    | cons h t' =>
      have hah : nonOverlapping a h := List.rel_of_chain_cons hchain
      rcases List.mem_cons.mp hb with hb | hb
      · exact hb ▸ hah
      · have hhb : startLe h b := (List.pairwise_cons.mp hsorted.2).1 b hb
        simp only [nonOverlapping] at hah ⊢
        simp only [startLe] at hhb
        omega

/-- C1: for every list of recorded autofix edits, the output of
`Fixes.getOverlapFree` is pairwise non-overlapping: in returned order,
every later edit's start offset is at least every earlier edit's end
offset. -/

theorem getOverlapFree_pairwise (edits : List AutoFix) :
    List.Pairwise nonOverlapping (getOverlapFree edits) := by
  have hsorted : List.Pairwise sortLe (getAllSorted edits) :=
    List.sorted_insertionSort sortLe edits
  unfold getOverlapFree
  cases h : getAllSorted edits with
  | nil => exact List.Pairwise.nil
  | cons first rest =>
    rw [h] at hsorted
    have hstart : List.Pairwise startLe (first :: rest) :=
      hsorted.imp (fun hab => sortLe_startLe hab)
    have hsub : List.Sublist (first :: overlapFreeLoop first rest) (first :: rest) :=
      List.Sublist.cons₂ first (overlapFreeLoop_sublist first rest)
    have hstart' : List.Pairwise startLe (first :: overlapFreeLoop first rest) :=
      List.Pairwise.sublist hsub hstart
    have hchain : List.Chain' nonOverlapping (first :: overlapFreeLoop first rest) :=
      overlapFreeLoop_chain first rest
    exact pairwise_of_chain_of_sorted _ hchain hstart'

end Fixes

theorem processQueue_cons (h : QHandlers) (m : QMessage) (rest : List QMessage) :
    processQueue h (m :: rest) = (rest, outcomeOf h m) := by
  cases m with
  | request method params docVer cancelled =>
    simp only [processQueue, outcomeOf]
    split
    · rfl
    · cases lookupHandler h.requestHandlers method with
      | none => rfl
      | some vp =>
        cases vp with
        | none => rfl
        | some provider =>
          cases docVer with
          | none => rfl
          | some v =>
            simp only
            split <;> rfl
  | notification method params docVer =>
    simp only [processQueue, outcomeOf]
    cases lookupHandler h.notificationHandlers method with
    | none => rfl
    | some vp =>
      cases vp with
      | none => rfl
      | some provider =>
        simp only
        split <;> rfl

theorem drainQueue_eq_map (h : QHandlers) (q : List QMessage) :
    drainQueue h q = q.map (outcomeOf h) := by
  induction q with
  | nil => rfl
  | cons m rest ih =>
    simp only [drainQueue, processQueue_cons, List.map_cons, ih]

/-- C3: the queue is FIFO and processed one message at a time.  All three
enqueue operations append at the tail; `processQueue` removes exactly the
head and settles only it (its outcome is independent of the rest of the
queue); hence draining the queue settles the messages exactly in enqueue
order. -/

theorem messageQueue_fifo (h : QHandlers) (q rest : List QMessage)
    (m : QMessage) (method : String) (params : Nat) (vp : Option (Nat → Int))
    (cancelled : Bool) (version : Int) :
    registerRequestEnqueue q method params vp cancelled =
      q ++ [QMessage.request method params (vp.map (fun f => f params)) cancelled] ∧
    registerNotificationEnqueue q method params vp =
      q ++ [QMessage.notification method params (vp.map (fun f => f params))] ∧
    addNotificationMessage q method params version =
      q ++ [QMessage.notification method params (some version)] ∧
    processQueue h (m :: rest) = (rest, outcomeOf h m) ∧
    drainQueue h q = q.map (outcomeOf h) :=
  ⟨rfl, rfl, rfl, processQueue_cons h m rest, drainQueue_eq_map h q⟩

/-- C2: when the dequeued message has a recorded document version and its
method has a registered version provider whose current value differs, the
handler never runs: a request is rejected with a `ResponseError` carrying
`ErrorCodes.RequestCancelled` and message `'Request got cancelled'`, and a
notification is silently dropped. -/

theorem processQueue_version_mismatch_never_handles (h : QHandlers)
    (method : String) (params : Nat) (v : Int) (provider : Nat → Int)
    (rest : List QMessage) :
    (lookupHandler h.requestHandlers method = some (some provider) →
      v ≠ provider params →
      processQueue h (QMessage.request method params (some v) false :: rest) =
        (rest, QOutcome.rejected requestCancelledCode "Request got cancelled")) ∧
    (lookupHandler h.notificationHandlers method = some (some provider) →
      v ≠ provider params →
      processQueue h (QMessage.notification method params (some v) :: rest) =
        (rest, QOutcome.dropped)) := by
  constructor
  · intro hreg hne
    simp only [processQueue, if_neg Bool.false_ne_true, hreg]
    rw [if_pos hne]
  · intro hreg hne
    simp only [processQueue, hreg]
    rw [if_pos (by simpa using hne)]

/-- Witness for C2: with current version `3` and recorded version `5`, the
request head is rejected with `RequestCancelled` and the notification head
is silently dropped. -/
theorem processQueue_version_mismatch_never_handles_witness :
    processQueue qHandlersEx [QMessage.request "m" 0 (some 5) false] =
      ([], QOutcome.rejected requestCancelledCode "Request got cancelled") ∧
    processQueue qHandlersEx [QMessage.notification "m" 0 (some 5)] =
      ([], QOutcome.dropped) :=
  ⟨(processQueue_version_mismatch_never_handles qHandlersEx "m" 0 5
      (fun _ => (3 : Int)) []).1 rfl (by decide),
   (processQueue_version_mismatch_never_handles qHandlersEx "m" 0 5
      (fun _ => (3 : Int)) []).2 rfl (by decide)⟩

/-- C4: a dequeued request whose cancellation token is already cancelled
is rejected with `ErrorCodes.RequestCancelled` and message
`'Request got cancelled'` before any handler lookup, for every handler
table and recorded version. -/

theorem processQueue_cancelled_request_rejected (h : QHandlers)
    (method : String) (params : Nat) (docVer : Option Int)
    (rest : List QMessage) :
    processQueue h (QMessage.request method params docVer true :: rest) =
      (rest, QOutcome.rejected requestCancelledCode "Request got cancelled") := by
  simp [processQueue]

/-- C5: `makeDiagnostic` converts the linter's 1-based line/column to
0-based positions clamped at 0, defaults the end position to the start
position when end line/column are absent, yields `Warning` exactly for
severity 1 (`Error` otherwise), and appends `' (ruleId)'` to the message
exactly when the rule id is non-null. -/
theorem makeDiagnostic_spec (p : StandardProblem) (src : Linter) :
    (makeDiagnostic p src).range.start.line = max 0 (p.line - 1) ∧
    (makeDiagnostic p src).range.start.character = max 0 (p.column - 1) ∧
    (p.endLine = none →
      (makeDiagnostic p src).range.«end».line =
        (makeDiagnostic p src).range.start.line) ∧
    (∀ el, p.endLine = some el →
      (makeDiagnostic p src).range.«end».line = max 0 (el - 1)) ∧
    (p.endColumn = none →
      (makeDiagnostic p src).range.«end».character =
        (makeDiagnostic p src).range.start.character) ∧
    (∀ ec, p.endColumn = some ec →
      (makeDiagnostic p src).range.«end».character = max 0 (ec - 1)) ∧
    ((makeDiagnostic p src).severity = DiagnosticSeverity.warning ↔
      p.severity = 1) ∧
    (p.ruleId = none → (makeDiagnostic p src).message = p.message) ∧
    (∀ rid, p.ruleId = some rid →
      (makeDiagnostic p src).message = p.message ++ " (" ++ rid ++ ")") := by
  refine ⟨rfl, rfl, ?_, ?_, ?_, ?_, ?_, ?_, ?_⟩
  · intro h; simp [makeDiagnostic, h]
  · intro el h; simp [makeDiagnostic, h]
  · intro h; simp [makeDiagnostic, h]
  · intro ec h; simp [makeDiagnostic, h]
  · simp only [makeDiagnostic, convertSeverity]
    split_ifs <;> simp_all
  · intro h; simp [makeDiagnostic, h]
  · intro rid h; simp [makeDiagnostic, h]

/-- Witness for C5: on `problemEx` the end position defaults to the start
position, the severity is `Error` (not `Warning`), and the rule id is
appended to the message. -/
theorem makeDiagnostic_spec_witness :
    (makeDiagnostic problemEx Linter.standard).range.«end».line =
      (makeDiagnostic problemEx Linter.standard).range.start.line ∧
    ((makeDiagnostic problemEx Linter.standard).severity =
        DiagnosticSeverity.warning ↔ problemEx.severity = 1) ∧
    (makeDiagnostic problemEx Linter.standard).message =
      problemEx.message ++ " (" ++ "semi" ++ ")" :=
  ⟨(makeDiagnostic_spec problemEx Linter.standard).2.2.1 rfl,
   (makeDiagnostic_spec problemEx Linter.standard).2.2.2.2.2.2.1,
   (makeDiagnostic_spec problemEx Linter.standard).2.2.2.2.2.2.2.2 "semi" rfl⟩

theorem resolvePackagePhase_true (p : PackageJson) (s : SettingsM) :
    resolvePackagePhase true true (some p) s = applyPackageJson s p := rfl

theorem firstDevDepLinter_none_iff (dd : DevDeps) :
    firstDevDepLinter dd = none ↔
      (dd.standard || dd.semistandard || dd.standardx || dd.tsStandard) = false := by
  unfold firstDevDepLinter
  split_ifs <;> simp_all

/-- Counterexample to C6 as stated: `devDependencies` names
`semistandard` (the first matching linter), but because the
`package.json` has no top-level `semistandard` section, `settings.engine`
is left at the workspace value `standard` instead of being switched. -/
theorem resolvePackagePhase_engine_not_switched :
    pkgNoSectionEx.devDependencies.map firstDevDepLinter =
      some (some Linter.semistandard) ∧
    resolvePackagePhase true true (some pkgNoSectionEx) settingsEx =
      Except.ok settingsEx ∧
    settingsEx.engine = Linter.standard ∧
    Linter.standard ≠ Linter.semistandard :=
  ⟨rfl, rfl, rfl, by decide⟩

/-- C6 (amended): with `devDependencies` present, the first linter named
in it (priority order standard, semistandard, standardx, ts-standard)
becomes the linter to load; when the `package.json` also has a top-level
section under that linter's key, `settings.engine` is switched to it and
the options become `Object.assign({}, settings.options, pkg[linter])`;
without such a section the settings are returned unchanged; and when
`devDependencies` names none of the four linters, `settings.validate` is
set to `false`. -/

theorem resolvePackagePhase_spec (s : SettingsM) (p : PackageJson)
    (dd : DevDeps) (hdd : p.devDependencies = some dd) :
    (∀ l sec, firstDevDepLinter dd = some l → p.sections l = some sec →
      resolvePackagePhase true true (some p) s =
        Except.ok { s with engine := l, options := objAssign s.options sec }) ∧
    (∀ l, firstDevDepLinter dd = some l → p.sections l = none →
      resolvePackagePhase true true (some p) s = Except.ok s) ∧
    (firstDevDepLinter dd = none →
      resolvePackagePhase true true (some p) s =
        Except.ok { s with validate := false }) := by
  have hor : ∀ l, firstDevDepLinter dd = some l →
      (dd.standard || dd.semistandard || dd.standardx || dd.tsStandard) = true := by
    intro l hfirst
    cases hcase : (dd.standard || dd.semistandard || dd.standardx || dd.tsStandard) with
    | false =>
      rw [(firstDevDepLinter_none_iff dd).mpr hcase] at hfirst
      cases hfirst
    | true => rfl
  refine ⟨?_, ?_, ?_⟩
  · intro l sec hfirst hsec
    rw [resolvePackagePhase_true]
    simp only [applyPackageJson, hdd, hfirst, Option.getD_some, hor l hfirst,
      if_true, hsec]
  · intro l hfirst hsec
    rw [resolvePackagePhase_true]
    simp only [applyPackageJson, hdd, hfirst, Option.getD_some, hor l hfirst,
      if_true, hsec]
  · intro hfirst
    rw [resolvePackagePhase_true]
    have hcase := (firstDevDepLinter_none_iff dd).mp hfirst
    simp only [applyPackageJson, hdd, hcase, Bool.false_eq_true, if_false]

/-- Witness for C6 (amended): with the `semistandard` section present the
engine is switched to `semistandard` and the section is merged over the
workspace options. -/
theorem resolvePackagePhase_spec_witness :
    resolvePackagePhase true true (some pkgWithSectionEx) settingsEx =
      Except.ok { settingsEx with
                  engine := Linter.semistandard
                  options := objAssign settingsEx.options
                    [("parser", "babel-eslint")] } :=
  (resolvePackagePhase_spec settingsEx pkgWithSectionEx
      { standard := false, semistandard := true, standardx := false,
        tsStandard := false } rfl).1
    Linter.semistandard [("parser", "babel-eslint")] rfl rfl

theorem find?_append_singleton {β : Type} (l : List (String × β)) (k : String)
    (v : β) (h : l.find? (fun p => p.1 == k) = none) :
    (l ++ [(k, v)]).find? (fun p => p.1 == k) = some (k, v) := by
  induction l with
  | nil => simp
  | cons a t ih =>
    rw [List.find?_cons] at h
    rcases hval : (a.1 == k) with _ | _
    · rw [hval] at h
      rw [List.cons_append, List.find?_cons, hval]
      exact ih h
    · rw [hval] at h
      cases h

theorem resolveSettingsCached_idem (st : ServerCacheState) (uri : String) :
    resolveSettingsCached (resolveSettingsCached st uri).1 uri =
      resolveSettingsCached st uri := by
  cases hfind : st.document2Settings.find? (fun p => p.1 == uri) with
  | some p => simp [resolveSettingsCached, hfind]
  | none =>
    simp only [resolveSettingsCached, hfind]
    rw [find?_append_singleton st.document2Settings uri st.nextPromiseId hfind]

theorem loadLibrary_idem (req : String → Option LibraryModule)
    (st : ServerCacheState) (path : String) (l : LibraryModule)
    (hreq : req path = some l) :
    loadLibrary req (loadLibrary req st path).1 path = loadLibrary req st path := by
  cases hfind : st.path2Library.find? (fun p => p.1 == path) with
  | some p => simp [loadLibrary, hfind]
  | none =>
    simp only [loadLibrary, hfind, hreq]
    rw [find?_append_singleton st.path2Library path l hfind]

/-- C7: settings resolution and linter loading are cached.  A URI whose
settings promise is in the cache gets exactly that promise back with no
state change (so no configuration re-read); a second `resolveSettings`
call for the same URI returns the state and promise of the first; a path
already in `path2Library` is served from the map with no state change (so
no `require`); a second library load for the same path returns the state
and result of the first (so the module is `require`d at most once); and
an environment change empties the settings cache. -/

theorem settings_and_library_cached (st : ServerCacheState) (uri path : String)
    (req : String → Option LibraryModule) (l : LibraryModule)
    (hreq : req path = some l) :
    (∀ e, st.document2Settings.find? (fun p => p.1 == uri) = some e →
      resolveSettingsCached st uri = (st, e.2)) ∧
    resolveSettingsCached (resolveSettingsCached st uri).1 uri =
      resolveSettingsCached st uri ∧
    (∀ q, st.path2Library.find? (fun p => p.1 == path) = some q →
      loadLibrary req st path = (st, some q.2)) ∧
    loadLibrary req (loadLibrary req st path).1 path = loadLibrary req st path ∧
    (cacheEnvironmentChanged st).document2Settings = [] := by
  refine ⟨?_, resolveSettingsCached_idem st uri, ?_, loadLibrary_idem req st path l hreq, rfl⟩
  · intro e he; simp [resolveSettingsCached, he]
  · intro q hq; simp [loadLibrary, hq]

/-- Witness for C7: from the empty state, a second settings resolution
for `file:///a.js` and a second library load of `/lib/standard` are
no-ops returning the first call's results. -/
theorem settings_and_library_cached_witness :
    resolveSettingsCached (resolveSettingsCached emptyCacheState "file:///a.js").1
        "file:///a.js" =
      resolveSettingsCached emptyCacheState "file:///a.js" ∧
    loadLibrary reqEx (loadLibrary reqEx emptyCacheState "/lib/standard").1
        "/lib/standard" =
      loadLibrary reqEx emptyCacheState "/lib/standard" :=
  ⟨(settings_and_library_cached emptyCacheState "file:///a.js" "/lib/standard"
      reqEx { lintTextPresent := true } rfl).2.1,
   (settings_and_library_cached emptyCacheState "file:///a.js" "/lib/standard"
      reqEx { lintTextPresent := true } rfl).2.2.2.1⟩

theorem activationStep_inv (valid : Nat → Bool) (s : ActivationState)
    (e : ClientEvent) (h : ActivationInv s) :
    ActivationInv (activationStep valid s e) := by
  have hzero : s.activated = false → s.realActivateCount = 0 := h.1
  cases e with
  | didOpen d =>
    simp only [activationStep]
    split_ifs with h1 h2 h3
    · exact h
    · exact h
    · have hfalse : s.activated = false := by
        revert h2; cases s.activated <;> simp
      refine ⟨fun hc => by simp [activatedState] at hc, fun _ => ?_⟩
      simp [activatedState, hzero hfalse]
    · exact h
  | configChange docs =>
    simp only [activationStep]
    split_ifs with h1 h2 h3
    · exact h
    · exact h
    · have hfalse : s.activated = false := by
        revert h2; cases s.activated <;> simp
      refine ⟨fun hc => by simp [activatedState] at hc, fun _ => ?_⟩
      simp [activatedState, hzero hfalse]
    · exact h

theorem foldl_activation_inv (valid : Nat → Bool) (events : List ClientEvent) :
    ∀ s, ActivationInv s →
      ActivationInv (events.foldl (activationStep valid) s) := by
  induction events with
  | nil => intro s h; exact h
  | cons e t ih => intro s h; exact ih _ (activationStep_inv valid s e h)

theorem activationStep_count_changed (valid : Nat → Bool)
    (s : ActivationState) (e : ClientEvent)
    (h : (activationStep valid s e).realActivateCount ≠ s.realActivateCount) :
    eventTriggers valid e = true := by
  cases e with
  | didOpen d =>
    simp only [activationStep] at h
    simp only [eventTriggers]
    split_ifs at h with h1 h2 h3
    · exact absurd rfl h
    · exact absurd rfl h
    · exact h3
    · exact absurd rfl h
  | configChange docs =>
    simp only [activationStep] at h
    simp only [eventTriggers]
    split_ifs at h with h1 h2 h3
    · exact absurd rfl h
    · exact absurd rfl h
    · exact h3
    · exact absurd rfl h

theorem foldl_activation_trigger (valid : Nat → Bool)
    (events : List ClientEvent) :
    ∀ s, (events.foldl (activationStep valid) s).realActivateCount ≠
        s.realActivateCount →
      ∃ e ∈ events, eventTriggers valid e = true := by
  induction events with
  | nil => intro s h; exact absurd rfl h
  | cons e t ih =>
    intro s h
    rw [List.foldl_cons] at h
    by_cases hstep :
        (activationStep valid s e).realActivateCount = s.realActivateCount
    · obtain ⟨e', he', ht⟩ := ih (activationStep valid s e) (by rw [hstep]; exact h)
      exact ⟨e', List.mem_cons_of_mem e he', ht⟩
    · exact ⟨e, List.mem_cons_self e t,
        activationStep_count_changed valid s e hstep⟩

/-- C8: the language-client machinery is activated lazily and at most
once.  Over any event sequence, `realActivate` runs at most once; it has
run exactly once iff the gate is activated; it runs only when some event
carried a document satisfying `shouldBeValidated` (an open, or a
configuration change with such a document open); and once activated both
listeners are disposed. -/

theorem activation_lazy_once (valid : Nat → Bool) (events : List ClientEvent) :
    (runActivation valid events).realActivateCount ≤ 1 ∧
    ((runActivation valid events).activated = true ↔
      (runActivation valid events).realActivateCount = 1) ∧
    ((runActivation valid events).realActivateCount = 1 →
      ∃ e ∈ events, eventTriggers valid e = true) ∧
    ((runActivation valid events).activated = true →
      (runActivation valid events).openListenerActive = false ∧
      (runActivation valid events).configListenerActive = false) := by
  have hinv : ActivationInv (runActivation valid events) :=
    foldl_activation_inv valid events initialActivation
      ⟨fun _ => rfl, fun hc => by simp [initialActivation] at hc⟩
  refine ⟨?_, ⟨fun ha => (hinv.2 ha).1, ?_⟩, ?_, fun ha => ⟨(hinv.2 ha).2.1, (hinv.2 ha).2.2⟩⟩
  · cases ha : (runActivation valid events).activated with
    | false => simp [hinv.1 ha]
    | true => simp [(hinv.2 ha).1]
  · intro hc
    cases ha : (runActivation valid events).activated with
    | false => rw [hinv.1 ha] at hc; cases hc
    | true => rfl
  · intro hc
    refine foldl_activation_trigger valid events initialActivation ?_
    show (runActivation valid events).realActivateCount ≠
      initialActivation.realActivateCount
    rw [hc]
    simp [initialActivation]

/-- Witness for C8: opening two validated documents activates exactly
once, and the trigger is among the events. -/

theorem activation_lazy_once_witness :
    (runActivation (fun _ => true)
        [ClientEvent.didOpen 0, ClientEvent.didOpen 1]).realActivateCount ≤ 1 ∧
    ∃ e ∈ [ClientEvent.didOpen 0, ClientEvent.didOpen 1],
      eventTriggers (fun _ => true) e = true :=
  ⟨(activation_lazy_once (fun _ => true)
      [ClientEvent.didOpen 0, ClientEvent.didOpen 1]).1,
   (activation_lazy_once (fun _ => true)
      [ClientEvent.didOpen 0, ClientEvent.didOpen 1]).2.2.1 (by decide)⟩

/-- C9: autofix edits are never produced for a stale document version.
`getFixes` returns `[]` when no edits are recorded for the document's URI
or when the recorded version differs from the document's current version;
`computeAllFixes` returns `undefined` when the document is not open or
when the requested version differs from the document's current version. -/
theorem stale_version_yields_no_fixes
    (codeActions : List (String × List AutoFix)) (doc : TextDocumentM)
    (documents : String → Option TextDocumentM) (uri : String)
    (version : Int) :
    (codeActions.find? (fun p => p.1 == doc.uri) = none →
      getFixes codeActions doc = []) ∧
    (∀ p, codeActions.find? (fun p2 => p2.1 == doc.uri) = some p →
      getDocumentVersion p.2 ≠ some doc.version →
      getFixes codeActions doc = []) ∧
    (documents uri = none →
      computeAllFixes documents codeActions uri version = none) ∧
    (∀ d, documents uri = some d → version ≠ d.version →
      computeAllFixes documents codeActions uri version = none) := by
  refine ⟨?_, ?_, ?_, ?_⟩
  · intro h; simp [getFixes, h]
  · intro p hfind hver
    simp only [getFixes, hfind]
    rcases hemp : p.2.isEmpty with _ | _
    · rw [if_neg (by simp [hemp]), if_pos (fun he => hver he.symm)]
    · rw [if_pos (by simp [hemp])]
  · intro h; simp [computeAllFixes, h]
  · intro d hdoc hver
    simp only [computeAllFixes, hdoc]
    rw [if_pos hver]

/-- Witness for C9: with the edit recorded against version 1 and the
document at version 2, `getFixes` yields `[]`; with requested version 3,
`computeAllFixes` yields `undefined`. -/
theorem stale_version_yields_no_fixes_witness :
    getFixes codeActionsEx docEx = [] ∧
    computeAllFixes (fun _ => some docEx) codeActionsEx "file:///a.js" 3 =
      none :=
  ⟨(stale_version_yields_no_fixes codeActionsEx docEx (fun _ => some docEx)
      "file:///a.js" 3).2.1 ("file:///a.js", [autoFixEx]) rfl (by decide),
   (stale_version_yields_no_fixes codeActionsEx docEx (fun _ => some docEx)
      "file:///a.js" 3).2.2.2 docEx rfl (by decide)⟩

/-- C10: `validate` never leaves the process working directory changed:
whatever the working-directory setting, workspace folder, directory
validity and lint outcome (including thrown exceptions), the working
directory after the `finally` block equals its value at entry. -/
theorem validate_restores_cwd (validDir : String → Bool)
    (wd : Option DirectoryItem) (wsf : Option WorkspaceFolderRef)
    (lintThrows : Bool) (cwd0 : String) :
    validateFinalCwd validDir wd wsf lintThrows cwd0 = cwd0 := by
  unfold validateFinalCwd
  split_ifs with h
  · rfl
  · push_neg at h
    exact h.symm

end VStandard
